import Mathlib

/-
Verification of the local persistence migration engine:
schema validation (hasValidIndexedDBSchema), the legacy IndexedDB adapter
(ProviderDB), and the LocalStorageMigration class (isMigrationNeeded,
migrate, clearIndexedDB, migrateAndCleanup, getMigrationStatus).

The embedding is shallow: the asynchronous browser APIs are replaced by an
explicit environment describing the outcome of each external call (open
outcomes, per-operation fault flags), and the two stores are explicit
record states threaded through each operation.  The migration engine only
reads the legacy store in migrate/getMigrationStatus and only reads the
durable store in clearIndexedDB, so each operation returns only the store
it can mutate.
-/

namespace Migration

/-- A JavaScript-style value as stored in metadata records, with its
truthiness, used by the source in `if (activeProfileId)` and in
`result?.value || 0`. -/
inductive JSVal where
  | str (s : String)
  | num (n : Int)
  | bool (b : Bool)
  | null
deriving DecidableEq, Repr

/-- JavaScript truthiness of a `JSVal`. -/
def JSVal.truthy : JSVal → Bool
  | .str s => !s.isEmpty
  | .num n => n != 0
  | .bool b => b
  | .null => false

/-- A profile record (`ProfileRecord` in the source). -/
structure ProfileRecord where
  id : String
  name : String
  isDefault : Bool
deriving DecidableEq, Repr

/-- The `EncryptedData` envelope shape from the encryption module:
base64 iv and base64 ciphertext. -/
structure EncryptedData where
  iv : String
  data : String
deriving DecidableEq, Repr

/-- The `providerType` field: `"builtin" | "custom"`. -/
inductive ProviderType where
  | builtin
  | custom
deriving DecidableEq, Repr

/-- A provider config record as stored in the legacy IndexedDB store
(the `ProviderConfig` interface in the migration module). -/
structure ProviderConfig where
  id : String
  profileId : String
  providerId : String
  providerType : ProviderType
  apiKey : Option EncryptedData
  model : String
  baseUrl : Option String
  enabled : Bool
  customName : Option String
  customModels : Option (List String)
  createdAt : Nat
  updatedAt : Nat
deriving DecidableEq, Repr

/-- The record passed to `localStorageProvider.saveProviderConfig` by
`migrate()` (the object literal at the save call: everything except
`id`/`createdAt`/`updatedAt`). -/
structure SavedConfigInput where
  profileId : String
  providerId : String
  providerType : ProviderType
  apiKey : Option EncryptedData
  model : String
  baseUrl : Option String
  enabled : Bool
  customName : Option String
  customModels : Option (List String)
deriving DecidableEq, Repr

/-- The exact field-by-field copy `migrate()` performs when relaying a
legacy provider config to `saveProviderConfig` (lines 477-487 of the
migration module): every field, `apiKey` included, is copied verbatim. -/
def savedOf (c : ProviderConfig) : SavedConfigInput :=
  { profileId := c.profileId
    providerId := c.providerId
    providerType := c.providerType
    apiKey := c.apiKey
    model := c.model
    baseUrl := c.baseUrl
    enabled := c.enabled
    customName := c.customName
    customModels := c.customModels }

/-- The content of the legacy IndexedDB store `ai-settings-db`:
the `profiles` table, the `provider_configs` table and the
`app_metadata` table (records `\x7bkey, value\x7d`). -/
structure IDB where
  profiles : List ProfileRecord
  configs : List ProviderConfig
  metadata : List (String × JSVal)
deriving DecidableEq, Repr

/-- Modelled from the spec: the Durable Key-Value Store
(`LocalStorageProvider`, whose implementation is not part of the core
sources; §6 declares its interface, §4.2 its idempotent-upsert write
semantics).  `available` reflects `isAvailable()`, `schemaVersion` the
schema-version counter. -/
structure LS where
  available : Bool
  schemaVersion : Nat
  profiles : List ProfileRecord
  configs : List SavedConfigInput
  metadata : List (String × JSVal)
deriving DecidableEq, Repr

/-- Modelled from the spec: `saveProfile` is an idempotent upsert keyed
by profile id. -/
def saveProfileLS (ls : LS) (p : ProfileRecord) : LS :=
  { ls with profiles := (ls.profiles.filter (fun q => q.id != p.id)) ++ [p] }

/-- Modelled from the spec: `saveProviderConfig` upserts the record for a
given profile-id/provider-id pair. -/
def saveConfigLS (ls : LS) (c : SavedConfigInput) : LS :=
  { ls with
      configs :=
        (ls.configs.filter
          (fun d => d.profileId != c.profileId || d.providerId != c.providerId)) ++ [c] }

/-- Modelled from the spec: `setMetadata` upserts the value under a
string key. -/
def setMetaLS (ls : LS) (k : String) (v : JSVal) : LS :=
  { ls with metadata := (ls.metadata.filter (fun kv => kv.1 != k)) ++ [(k, v)] }

/-- Outcome of the `indexedDB.open("ai-settings-db", 1)` request inside
`hasValidIndexedDBSchema`: success (with the database's object-store
names and whether enumerating them throws before `db.close()` is
reached), an error event, a blocked event, or `indexedDB.open` itself
throwing synchronously. -/
inductive OpenOutcome where
  | success (stores : List String) (enumThrows : Bool)
  | openError
  | blocked
  | openThrows
deriving DecidableEq, Repr

/-- Fault schedule for the legacy-store adapter operations used by the
migration engine: which calls reject.  Reads are deterministic within one
engine operation (nothing writes the legacy store concurrently). -/
structure IDBFaults where
  getAllProfilesFails : Bool
  getConfigsFails : String → Bool
  getMetadataFails : Bool
  getVersionFails : Bool
  delConfigFails : String → Bool
  delProfileFails : String → Bool

/-- Modelled from the spec: fault schedule for the Durable Key-Value
Store operations (which calls of the §6 interface reject). -/
structure LSFaults where
  getVersionFails : Bool
  setVersionFails : Bool
  saveProfileFails : String → Bool
  saveConfigFails : String → String → Bool
  setMetadataFails : String → Bool
  getAllProfilesFails : Bool
  getConfigsFails : String → Bool

/-- The environment of one migration-engine operation: whether
`indexedDB` is defined, whether the module-level `ProviderDB` object was
initialized, the outcome of the validator's open request, and the fault
schedules of both stores. -/
structure Env where
  idbDefined : Bool
  providerDBPresent : Bool
  openOutcome : OpenOutcome
  idbFaults : IDBFaults
  lsFaults : LSFaults

/-- Result of one `hasValidIndexedDBSchema` call: the boolean the promise
resolves to, whether a database connection was opened, and whether it was
closed before the promise resolved. -/
structure SchemaCheck where
  result : Bool
  opened : Bool
  closed : Bool
deriving DecidableEq, Repr

/-- The fixed required object-store set of the validator. -/
def requiredStores : List String := ["profiles", "provider_configs", "app_metadata"]

/-- Shallow embedding of `hasValidIndexedDBSchema` (migration module
lines 120-149).  The function always resolves to a boolean: every
branch (`onsuccess` with its inner try/catch, `onerror`, `onblocked`,
and the outer catch around `indexedDB.open`) calls `resolve`, never
`reject`, and the outer catch returns `false`.  On the `onsuccess`
branch the connection is closed only on the non-throwing path, because
the inner `catch` resolves without calling `db.close()`. -/
def hasValidIndexedDBSchema (e : Env) : SchemaCheck :=
  if !e.idbDefined then ⟨false, false, false⟩
  else
    match e.openOutcome with
    | .openThrows => ⟨false, false, false⟩
    | .openError => ⟨false, false, false⟩
    | .blocked => ⟨false, false, false⟩
    | .success stores enumThrows =>
      if enumThrows then ⟨false, true, false⟩
      else ⟨requiredStores.all (fun s => stores.contains s), true, true⟩

/-- The spec's wording for the validator verdict: true exactly when
`indexedDB` exists, the open request succeeds, enumerating the tables
does not throw, and every required table is present. -/
def schemaValidSpec (e : Env) : Bool :=
  e.idbDefined &&
    match e.openOutcome with
    | .success stores enumThrows =>
      !enumThrows && requiredStores.all (fun s => stores.contains s)
    | _ => false

/-- The legacy adapter's `getMetadata`: the stored value of the record
under the key, `null` when the record is absent (`result ? result.value
: null`). -/
def getMetadataIDB (idb : IDB) (k : String) : JSVal :=
  match idb.metadata.find? (fun kv => kv.1 == k) with
  | none => .null
  | some kv => kv.2

/-- The value the legacy adapter's `getSchemaVersion` resolves on a
successful read: `result?.value || 0`. -/
def legacySchemaVersion (idb : IDB) : JSVal :=
  match idb.metadata.find? (fun kv => kv.1 == "schema_version") with
  | none => .num 0
  | some kv => if kv.2.truthy then kv.2 else .num 0

/-- External calls issued by `migrate()` against the durable store (and
the encryption module, which `migrate()` never touches: the `encryptCall`
and `decryptCall` events exist so that their absence from the log is a
theorem, not a convention). -/
inductive Event where
  | saveProfile (p : ProfileRecord)
  | saveConfig (c : SavedConfigInput)
  | setMetadataEv (k : String) (v : JSVal)
  | setVersionEv (n : Nat)
  | encryptCall
  | decryptCall
deriving DecidableEq, Repr

/-- The result record of `migrate()`. -/
structure MigResult where
  success : Bool
  message : String
  migratedItems : Nat
deriving DecidableEq, Repr

/-- The result built by `migrate()`'s catch block: `success=false`,
message from the error, and the literal `migratedItems: 0` (the counter
variable is scoped to the try block and is not consulted). -/
def failMig (msg : String) : MigResult :=
  ⟨false, "Migration failed: " ++ msg, 0⟩

/-- The profile loop of `migrate()` (lines 463-466): save each profile,
incrementing the counter; a rejected save throws to the catch block.
Returns the durable state, the counter, the events of this loop, and the
error that aborted it, if any. -/
def profLoop (fail : String → Bool) :
    List ProfileRecord → LS → Nat → LS × Nat × List Event × Option String
  | [], ls, n => (ls, n, [], none)
  | p :: rest, ls, n =>
    if fail p.id then (ls, n, [], some "saveProfile failed")
    else
      match profLoop fail rest (saveProfileLS ls p) (n + 1) with
      | (ls1, n1, evs, err) => (ls1, n1, Event.saveProfile p :: evs, err)

/-- The inner config loop of `migrate()` (lines 476-490): relay each
config of one profile through `saveProviderConfig`, incrementing both
counters.  Returns state, item counter, config counter, events, and the
aborting error, if any. -/
def cfgInner (fail : String → String → Bool) :
    List ProviderConfig → LS → Nat → Nat → LS × Nat × Nat × List Event × Option String
  | [], ls, n, m => (ls, n, m, [], none)
  | c :: rest, ls, n, m =>
    if fail c.profileId c.providerId then (ls, n, m, [], some "saveProviderConfig failed")
    else
      match cfgInner fail rest (saveConfigLS ls (savedOf c)) (n + 1) (m + 1) with
      | (ls1, n1, m1, evs, err) =>
        (ls1, n1, m1, Event.saveConfig (savedOf c) :: evs, err)

/-- The outer config loop of `migrate()` (lines 472-491): for each
profile, fetch its configs by the profile-id index and relay them. -/
def cfgOuter (e : Env) (idb : IDB) :
    List ProfileRecord → LS → Nat → Nat → LS × Nat × Nat × List Event × Option String
  | [], ls, n, m => (ls, n, m, [], none)
  | p :: rest, ls, n, m =>
    if e.idbFaults.getConfigsFails p.id then
      (ls, n, m, [], some "getProviderConfigsByProfile failed")
    else
      match cfgInner e.lsFaults.saveConfigFails
          (idb.configs.filter (fun c => c.profileId == p.id)) ls n m with
      | (ls1, n1, m1, evs1, some msg) => (ls1, n1, m1, evs1, some msg)
      | (ls1, n1, m1, evs1, none) =>
        match cfgOuter e idb rest ls1 n1 m1 with
        | (ls2, n2, m2, evs2, err) => (ls2, n2, m2, evs1 ++ evs2, err)

/-- The second half of the metadata block of `migrate()` (lines
501-503): fetch the legacy schema version and relay it, counted; a
rejection of either call ends the block via the inner catch. -/
def metaStep2 (e : Env) (idb : IDB) (ls : LS) (n : Nat) (evs : List Event) :
    LS × Nat × List Event :=
  if e.idbFaults.getVersionFails then (ls, n, evs)
  else if e.lsFaults.setMetadataFails "schema_version" then (ls, n, evs)
  else
    (setMetaLS ls "schema_version" (legacySchemaVersion idb), n + 1,
     evs ++ [Event.setMetadataEv "schema_version" (legacySchemaVersion idb)])

/-- The metadata block of `migrate()` (lines 493-506), first half: copy
the active profile id when truthy; any rejection inside the block is
swallowed by the inner catch and ends the block (the second half,
`metaStep2`, is then skipped) without aborting the migration. -/
def metaBlock (e : Env) (idb : IDB) (ls : LS) (n : Nat) : LS × Nat × List Event :=
  if e.idbFaults.getMetadataFails then (ls, n, [])
  else if (getMetadataIDB idb "active_profile_id").truthy then
    if e.lsFaults.setMetadataFails "active_profile_id" then (ls, n, [])
    else
      metaStep2 e idb
        (setMetaLS ls "active_profile_id" (getMetadataIDB idb "active_profile_id"))
        (n + 1)
        [Event.setMetadataEv "active_profile_id" (getMetadataIDB idb "active_profile_id")]
  else metaStep2 e idb ls n []

/-- Shallow embedding of `LocalStorageMigration.migrate` (lines
433-526): availability gate, schema re-validation gate, profile loop,
config loop, best-effort metadata block, final schema-version bump, and
the catch block discarding the counter.  Returns the result record, the
durable state (partial writes persist across the catch), and the event
log. -/
def migrate (e : Env) (ls : LS) (idb : IDB) : MigResult × LS × List Event :=
  if !ls.available then
    (⟨false, "localStorage is not available", 0⟩, ls, [])
  else if !e.providerDBPresent || !(hasValidIndexedDBSchema e).result then
    (⟨false, "IndexedDB is not available or has invalid schema", 0⟩, ls, [])
  else if e.idbFaults.getAllProfilesFails then
    (failMig "getAllProfiles failed", ls, [])
  else
    match profLoop e.lsFaults.saveProfileFails idb.profiles ls 0 with
    | (ls1, _, evs1, some msg) => (failMig msg, ls1, evs1)
    | (ls1, n1, evs1, none) =>
      match cfgOuter e idb idb.profiles ls1 n1 0 with
      | (ls2, _, _, evs2, some msg) => (failMig msg, ls2, evs1 ++ evs2)
      | (ls2, n2, m2, evs2, none) =>
        match metaBlock e idb ls2 n2 with
        | (ls3, n3, evs3) =>
          if e.lsFaults.setVersionFails then
            (failMig "setSchemaVersion failed", ls3, evs1 ++ evs2 ++ evs3)
          else
            (⟨true,
              "Successfully migrated " ++ toString idb.profiles.length ++
                " profiles and " ++ toString m2 ++ " provider configurations",
              n3⟩,
             { ls3 with schemaVersion := 2 },
             evs1 ++ evs2 ++ evs3 ++ [Event.setVersionEv 2])

/-- Shallow embedding of `LocalStorageMigration.isMigrationNeeded`
(lines 391-428).  Mutates at most the durable schema version; any caught
exception triggers a best-effort `setSchemaVersion(2)` and a `false`
verdict. -/
def isMigrationNeeded (e : Env) (ls : LS) (idb : IDB) : Bool × LS :=
  if e.lsFaults.getVersionFails then
    if e.lsFaults.setVersionFails then (false, ls)
    else (false, { ls with schemaVersion := 2 })
  else if 2 ≤ ls.schemaVersion then (false, ls)
  else if !e.providerDBPresent || !(hasValidIndexedDBSchema e).result then
    if e.lsFaults.setVersionFails then (false, ls)
    else (false, { ls with schemaVersion := 2 })
  else if e.idbFaults.getAllProfilesFails then
    if e.lsFaults.setVersionFails then (false, ls)
    else (false, { ls with schemaVersion := 2 })
  else if idb.profiles.isEmpty then
    if e.lsFaults.setVersionFails then (false, ls)
    else (false, { ls with schemaVersion := 2 })
  else (true, ls)

/-- The result record of `getMigrationStatus()`. -/
structure Status where
  needsMigration : Bool
  localStorageAvailable : Bool
  localStorageItems : Nat
  indexedDBAvailable : Bool
  indexedDBItems : Nat
deriving DecidableEq, Repr

/-- The localStorage counting loop of `getMigrationStatus` (lines
619-631): add each profile's config count; a rejected config read is
caught keeping the count accumulated so far. -/
def countLSLoop (fail : String → Bool) (cfgCount : String → Nat) :
    List ProfileRecord → Nat → Nat
  | [], acc => acc
  | p :: rest, acc =>
    if fail p.id then acc
    else countLSLoop fail cfgCount rest (acc + cfgCount p.id)

/-- The IndexedDB counting loop of `getMigrationStatus` (lines 633-647):
like the localStorage loop, but a caught error resets the count fully to
zero. -/
def countIDBLoop (fail : String → Bool) (cfgCount : String → Nat) :
    List ProfileRecord → Nat → Option Nat
  | [], acc => some acc
  | p :: rest, acc =>
    if fail p.id then none
    else countIDBLoop fail cfgCount rest (acc + cfgCount p.id)

/-- Shallow embedding of `LocalStorageMigration.getMigrationStatus`
(lines 600-656).  Only the durable store can change, through the nested
`isMigrationNeeded` call; the legacy store is only read, which the
embedding reflects by returning no legacy state. -/
def getMigrationStatus (e : Env) (ls : LS) (idb : IDB) : Status × LS :=
  let lsA := ls.available
  let sc := (hasValidIndexedDBSchema e).result
  let idbA := e.providerDBPresent && sc
  let r := isMigrationNeeded e ls idb
  let lsItems :=
    if !lsA then 0
    else if e.lsFaults.getAllProfilesFails then 0
    else
      countLSLoop e.lsFaults.getConfigsFails
        (fun pid => (r.2.configs.filter (fun c => c.profileId == pid)).length)
        r.2.profiles r.2.profiles.length
  let idbItems :=
    if !idbA then 0
    else if e.idbFaults.getAllProfilesFails then 0
    else
      match
        countIDBLoop e.idbFaults.getConfigsFails
          (fun pid => (idb.configs.filter (fun c => c.profileId == pid)).length)
          idb.profiles idb.profiles.length
      with
      | none => 0
      | some k => k
  (⟨r.1, lsA, lsItems, idbA, idbItems⟩, r.2)

/-- The inner config-deletion loop of `clearIndexedDB` (lines 550-552):
delete each config of the fetched snapshot by id; a rejection propagates
(there is no per-item catch). -/
def delConfigsList (fail : String → Bool) :
    List ProviderConfig → IDB → Option String × IDB
  | [], idb => (none, idb)
  | c :: rest, idb =>
    if fail c.id then (some "deleteProviderConfig failed", idb)
    else
      delConfigsList fail rest
        { idb with configs := idb.configs.filter (fun d => d.id != c.id) }

/-- The config-deletion pass of `clearIndexedDB` (lines 548-553): for
each profile, fetch its configs and delete them; a rejected fetch or
delete aborts the whole pass. -/
def configPass (e : Env) : List ProfileRecord → IDB → Option String × IDB
  | [], idb => (none, idb)
  | p :: rest, idb =>
    if e.idbFaults.getConfigsFails p.id then
      (some "getProviderConfigsByProfile failed", idb)
    else
      match
        delConfigsList e.idbFaults.delConfigFails
          (idb.configs.filter (fun c => c.profileId == p.id)) idb
      with
      | (some m, idb1) => (some m, idb1)
      | (none, idb1) => configPass e rest idb1

/-- The profile-deletion pass of `clearIndexedDB` (lines 556-564):
delete every non-default profile; each deletion failure is caught and
logged individually, so the pass never aborts. -/
def profilePass (e : Env) : List ProfileRecord → IDB → IDB
  | [], idb => idb
  | p :: rest, idb =>
    if p.isDefault then profilePass e rest idb
    else if e.idbFaults.delProfileFails p.id then profilePass e rest idb
    else
      profilePass e rest
        { idb with profiles := idb.profiles.filter (fun q => q.id != p.id) }

/-- Shallow embedding of `LocalStorageMigration.clearIndexedDB` (lines
531-571): skip silently when the schema is invalid or the adapter is
absent; otherwise delete configs (children first, failures fatal and
rethrown by the outer catch) then non-default profiles (failures caught
per item). -/
def clearIndexedDB (e : Env) (idb : IDB) : Except String Unit × IDB :=
  if !e.providerDBPresent || !(hasValidIndexedDBSchema e).result then (.ok (), idb)
  else if e.idbFaults.getAllProfilesFails then (.error "getAllProfiles failed", idb)
  else
    match configPass e idb.profiles idb with
    | (some m, idb1) => (.error m, idb1)
    | (none, idb1) => (.ok (), profilePass e idb.profiles idb1)

/-- The result record of `migrateAndCleanup()`. -/
structure CleanupResult where
  success : Bool
  message : String
deriving DecidableEq, Repr

/-- Shallow embedding of `LocalStorageMigration.migrateAndCleanup`
(lines 576-595): a failed migration is returned verbatim; after a
successful one, a cleanup rejection is downgraded to a warning appended
to the success message. -/
def migrateAndCleanup (e : Env) (ls : LS) (idb : IDB) : CleanupResult × LS × IDB :=
  match migrate e ls idb with
  | (r, ls1, _) =>
    if !r.success then (⟨r.success, r.message⟩, ls1, idb)
    else
      match clearIndexedDB e idb with
      | (.ok _, idb1) =>
        (⟨true, r.message ++ " IndexedDB has been cleaned up."⟩, ls1, idb1)
      | (.error m, idb1) =>
        (⟨true, r.message ++ " Warning: Could not clear IndexedDB: " ++ m⟩, ls1, idb1)

/-- Result of one call to the legacy adapter's `getSchemaVersion`: the
value the promise settles with and whether `indexedDB.open` was invoked
at all. -/
structure VersionProbe where
  value : Except String JSVal
  openedStore : Bool
deriving Repr

/-- Shallow embedding of `ProviderDB.getSchemaVersion` (lines 239-262):
short-circuit to 0 without opening the store when the cached
schema-valid flag is false; otherwise open the store (rejecting on an
open error, a transaction exception, or a request error) and resolve
`result?.value || 0` for the `schema_version` record. -/
def getSchemaVersionPDB (schemaValidFlag openFails txThrows reqFails : Bool)
    (metadata : List (String × JSVal)) : VersionProbe :=
  if !schemaValidFlag then ⟨.ok (.num 0), false⟩
  else if openFails then ⟨.error "open failed", true⟩
  else if txThrows then ⟨.error "transaction exception", true⟩
  else if reqFails then ⟨.error "request failed", true⟩
  else
    match metadata.find? (fun kv => kv.1 == "schema_version") with
    | none => ⟨.ok (.num 0), true⟩
    | some kv => ⟨.ok (if kv.2.truthy then kv.2 else .num 0), true⟩

/-- Fixture: the default profile of the two-profile scenario. -/
def pDef : ProfileRecord := ⟨"p1", "Default", true⟩

/-- Fixture: the non-default profile of the two-profile scenario. -/
def pWork : ProfileRecord := ⟨"p2", "Work", false⟩

/-- Fixture: the default profile's single provider config. -/
def cfg1 : ProviderConfig :=
  ⟨"c1", "p1", "openai", .builtin, some ⟨"aXk=", "Y2lwaGVy"⟩, "gpt-4o", none,
   true, none, none, 1, 1⟩

/-- Fixture: the non-default profile's first provider config. -/
def cfg2 : ProviderConfig :=
  ⟨"c2", "p2", "openai", .builtin, none, "gpt-4o-mini", none, true, none, none, 2, 2⟩

/-- Fixture: the non-default profile's second provider config. -/
def cfg3 : ProviderConfig :=
  ⟨"c3", "p2", "anthropic", .builtin, some ⟨"aXYy", "ZGF0YTI="⟩, "claude", none,
   true, none, none, 3, 3⟩

/-- Fixture: the legacy store of the spec's scenario — two profiles (one
default with one config, one non-default with two), no metadata. -/
def idbScenario : IDB := ⟨[pDef, pWork], [cfg1, cfg2, cfg3], []⟩

/-- Fixture: an empty, available durable store at schema version 0. -/
def lsEmpty : LS := ⟨true, 0, [], [], []⟩

/-- Fixture: a fault-free legacy adapter. -/
def noIDBFaults : IDBFaults :=
  ⟨false, fun _ => false, false, false, fun _ => false, fun _ => false⟩

/-- Fixture: a fault-free durable store. -/
def noLSFaults : LSFaults :=
  ⟨false, false, fun _ => false, fun _ _ => false, fun _ => false, false, fun _ => false⟩

/-- Fixture: a healthy environment — `indexedDB` defined, adapter
initialized, validator open succeeding with all three tables, no
faults. -/
def envOK : Env :=
  ⟨true, true, .success requiredStores false, noIDBFaults, noLSFaults⟩

/-- Fixture: the healthy environment except that saving the second
profile to the durable store rejects. -/
def envFailP2 : Env :=
  { envOK with
      lsFaults := { noLSFaults with saveProfileFails := fun s => s == "p2" } }

/-- Fixture: the healthy environment except that deleting provider
config `c1` from the legacy store rejects. -/
def envDelFail : Env :=
  { envOK with
      idbFaults := { noIDBFaults with delConfigFails := fun s => s == "c1" } }

/-- Fixture: an environment with no initialized legacy adapter. -/
def envNoPDB : Env :=
  ⟨false, false, .openError, noIDBFaults, noLSFaults⟩

/-- Fixture: the healthy environment except that enumerating the object
stores inside the validator throws after the connection opened. -/
def envEnumThrows : Env :=
  ⟨true, true, .success requiredStores true, noIDBFaults, noLSFaults⟩

/-- C4: `hasValidIndexedDBSchema` resolves (to a boolean, by totality of
the embedding: every environment yields a `SchemaCheck`, never a thrown
error) to `true` iff the open succeeds and all three required tables are
present; every open error, blocked open, or enumeration exception yields
`false`. -/
theorem hasValidIndexedDBSchema_correct (e : Env) :
    (hasValidIndexedDBSchema e).result = schemaValidSpec e := by
  unfold hasValidIndexedDBSchema schemaValidSpec
  cases h : e.idbDefined <;> cases e.openOutcome <;> simp_all
  rename_i stores enumThrows
  cases enumThrows <;> simp

/-- C1 counterexample: on the spec's exact scenario (two profiles, one
default with one config, the other with two, no metadata records),
`migrate()` succeeds but reports `migratedItems` different from 5: the
metadata block also counts the relayed `schema_version` entry. -/
theorem migrate_scenario_not_five :
    (migrate envOK lsEmpty idbScenario).1.success = true ∧
    (migrate envOK lsEmpty idbScenario).1.migratedItems ≠ 5 := by
  constructor
  · rfl
  · decide

/-- C1 (amended): on the scenario's store, `migrate()` returns
`success=true` with `migratedItems=6` (2 profiles + 3 configs + the
schema-version metadata entry), and `getMigrationStatus()` afterwards
reports `needsMigration=false`. -/
theorem migrate_scenario_six_items :
    (migrate envOK lsEmpty idbScenario).1.success = true ∧
    (migrate envOK lsEmpty idbScenario).1.migratedItems = 6 ∧
    (getMigrationStatus envOK (migrate envOK lsEmpty idbScenario).2.1
        idbScenario).1.needsMigration = false := by
  refine ⟨rfl, rfl, ?_⟩
  decide

/-- C2 counterexample: when saving the second profile rejects, one item
(the first profile) has already been written to the durable store, yet
`migrate()` reports `migratedItems = 0`, not the partial count 1: the
catch block returns the literal zero. -/
theorem migrate_partial_count_discarded :
    (migrate envFailP2 lsEmpty idbScenario).1.success = false ∧
    (migrate envFailP2 lsEmpty idbScenario).2.1.profiles = [pDef] ∧
    (migrate envFailP2 lsEmpty idbScenario).1.migratedItems = 0 ∧
    (migrate envFailP2 lsEmpty idbScenario).1.migratedItems ≠
      (migrate envFailP2 lsEmpty idbScenario).2.1.profiles.length := by
  refine ⟨rfl, by decide, rfl, by decide⟩

/-- C2 (amended): whenever `migrate()` returns `success=false` — also
after some writes already succeeded — the reported `migratedItems` is 0;
the partial count is discarded (the partial writes themselves persist in
the durable store). -/
theorem migrate_failure_items_zero (e : Env) (ls : LS) (idb : IDB)
    (h : (migrate e ls idb).1.success = false) :
    (migrate e ls idb).1.migratedItems = 0 := by
  have hd : (migrate e ls idb).1.success = true ∨
      (migrate e ls idb).1.migratedItems = 0 := by
    unfold migrate
    repeat' split
    all_goals simp [failMig]
  rcases hd with h1 | h1
  · rw [h1] at h
    simp at h
  · exact h1

/-- Witness for `migrate_failure_items_zero` at the concrete failing
environment of the counterexample. -/
theorem migrate_failure_items_zero_witness :
    (migrate envFailP2 lsEmpty idbScenario).1.migratedItems = 0 :=
  migrate_failure_items_zero envFailP2 lsEmpty idbScenario (by decide)

/-- C3 counterexample: with the durable store at version 0 and no legacy
adapter, `getMigrationStatus()` is not read-only — the nested
`isMigrationNeeded()` call writes schema version 2 into the durable
store. -/
theorem getMigrationStatus_writes_version :
    lsEmpty.schemaVersion = 0 ∧
    (getMigrationStatus envNoPDB lsEmpty idbScenario).2.schemaVersion = 2 :=
  ⟨rfl, rfl⟩

/-- C3 (amended): `getMigrationStatus()` never touches the legacy store
(the embedding returns no legacy state because the source only reads
it), and leaves the durable store's profiles, configs, metadata and
availability unchanged; the only possible write is the nested
`isMigrationNeeded()` call setting the durable schema version to 2. -/
theorem getMigrationStatus_frame (e : Env) (ls : LS) (idb : IDB) :
    ((getMigrationStatus e ls idb).2.available = ls.available ∧
     (getMigrationStatus e ls idb).2.profiles = ls.profiles ∧
     (getMigrationStatus e ls idb).2.configs = ls.configs ∧
     (getMigrationStatus e ls idb).2.metadata = ls.metadata) ∧
    ((getMigrationStatus e ls idb).2.schemaVersion = ls.schemaVersion ∨
     (getMigrationStatus e ls idb).2.schemaVersion = 2) := by
  have h2 : (getMigrationStatus e ls idb).2 = (isMigrationNeeded e ls idb).2 := rfl
  rw [h2]
  unfold isMigrationNeeded
  repeat' split
  all_goals simp

/-- C6: if `migrate()` succeeded, `migrateAndCleanup()` reports
`success=true`, with either the cleaned-up message or the cleanup
failure downgraded to a warning appended to the migration message. -/
theorem migrateAndCleanup_preserves_success (e : Env) (ls : LS) (idb : IDB)
    (h : (migrate e ls idb).1.success = true) :
    (migrateAndCleanup e ls idb).1.success = true ∧
    ((migrateAndCleanup e ls idb).1.message =
        (migrate e ls idb).1.message ++ " IndexedDB has been cleaned up." ∨
     ∃ m, (migrateAndCleanup e ls idb).1.message =
        (migrate e ls idb).1.message ++ " Warning: Could not clear IndexedDB: " ++ m) := by
  unfold migrateAndCleanup
  rcases hm : migrate e ls idb with ⟨r, ls1, evs⟩
  rw [hm] at h
  have hr : r.success = true := h
  simp only [hr, Bool.not_true]
  rcases hcl : clearIndexedDB e idb with ⟨res, idb1⟩
  cases res with
  | error m => exact ⟨rfl, Or.inr ⟨m, rfl⟩⟩
  | ok u => exact ⟨rfl, Or.inl rfl⟩

/-- Witness for `migrateAndCleanup_preserves_success`: a successful
migration followed by a rejecting cleanup still reports success. -/
theorem migrateAndCleanup_preserves_success_witness :
    (migrate envDelFail lsEmpty idbScenario).1.success = true ∧
    (migrateAndCleanup envDelFail lsEmpty idbScenario).1.success = true :=
  ⟨by decide,
   (migrateAndCleanup_preserves_success envDelFail lsEmpty idbScenario (by decide)).1⟩

/-- C7: at the failing input — the open request succeeds (a connection
is handed out) but enumerating the object stores throws — the promise
resolves `false` with the connection still open: the inner catch calls
`resolve(false)` without `db.close()`, leaking the connection. -/
theorem hasValidIndexedDBSchema_leaks_on_enum_throw :
    hasValidIndexedDBSchema envEnumThrows =
      { result := false, opened := true, closed := false } := rfl

/-- C10: the legacy adapter's `getSchemaVersion` resolves 0 without
opening the store when the cached schema-valid flag is false; resolves 0
when the `schema_version` record is absent; and resolves the same 0 when
the record is present with any falsy value — so callers cannot
distinguish the two. -/
theorem getSchemaVersionPDB_zero_cases (o t r : Bool)
    (md : List (String × JSVal)) (v : JSVal) :
    (getSchemaVersionPDB false o t r md =
      { value := .ok (.num 0), openedStore := false }) ∧
    (md.find? (fun kv => kv.1 == "schema_version") = none →
      getSchemaVersionPDB true false false false md =
        { value := .ok (.num 0), openedStore := true }) ∧
    (v.truthy = false →
      getSchemaVersionPDB true false false false (("schema_version", v) :: md) =
        { value := .ok (.num 0), openedStore := true }) := by
  refine ⟨rfl, ?_, ?_⟩
  · intro h
    unfold getSchemaVersionPDB
    simp [h]
  · intro h
    unfold getSchemaVersionPDB
    simp [List.find?, h]

/-- Witness for `getSchemaVersionPDB_zero_cases`: the recorded value 0
and the absent record give the same answer, and the flag-false case does
not open the store. -/
theorem getSchemaVersionPDB_zero_cases_witness :
    (getSchemaVersionPDB true false false false [("schema_version", JSVal.num 0)] =
      { value := .ok (.num 0), openedStore := true }) ∧
    (getSchemaVersionPDB false true true true [] =
      { value := .ok (.num 0), openedStore := false }) :=
  ⟨(getSchemaVersionPDB_zero_cases false false false [] (JSVal.num 0)).2.2 (by decide),
   (getSchemaVersionPDB_zero_cases true true true [] (JSVal.num 0)).1⟩

/-- The config-deletion inner loop only touches the `configs` table:
the `profiles` table is unchanged. -/
theorem delConfigsList_profiles (fail : String → Bool) :
    ∀ (cs : List ProviderConfig) (idb : IDB),
      (delConfigsList fail cs idb).2.profiles = idb.profiles := by
  intro cs
  induction cs with
  | nil => intro idb; rfl
  | cons c rest ih =>
    intro idb
    unfold delConfigsList
    split
    · rfl
    · exact ih _

/-- The config-deletion pass only touches the `configs` table: the
`profiles` table is unchanged, whether it aborts or not. -/
theorem configPass_profiles (e : Env) :
    ∀ (ps : List ProfileRecord) (idb : IDB),
      (configPass e ps idb).2.profiles = idb.profiles := by
  intro ps
  induction ps with
  | nil => intro idb; rfl
  | cons p rest ih =>
    intro idb
    unfold configPass
    split
    · rfl
    · split
      · rename_i m idb1 heq
        have h := delConfigsList_profiles e.idbFaults.delConfigFails
          (idb.configs.filter (fun c => c.profileId == p.id)) idb
        rw [heq] at h
        exact h
      · rename_i idb1 heq
        have h := delConfigsList_profiles e.idbFaults.delConfigFails
          (idb.configs.filter (fun c => c.profileId == p.id)) idb
        rw [heq] at h
        rw [ih idb1, h]

/-- The profile-deletion pass never removes a default-flagged record:
as long as the ids of the original table are distinct and the iterated
snapshot comes from that table, a default profile present in the current
table is still present afterwards. -/
theorem profilePass_keeps_default (e : Env) (p : ProfileRecord)
    (orig : List ProfileRecord) (hnd : (orig.map ProfileRecord.id).Nodup)
    (hp : p ∈ orig) (hdef : p.isDefault = true) :
    ∀ (ps : List ProfileRecord) (idb : IDB),
      (∀ q ∈ ps, q ∈ orig) → p ∈ idb.profiles →
      p ∈ (profilePass e ps idb).profiles := by
  intro ps
  induction ps with
  | nil =>
    intro idb _ hin
    simpa [profilePass] using hin
  | cons q rest ih =>
    intro idb hsub hin
    have hqorig : q ∈ orig := hsub q (List.mem_cons_self q rest)
    have hrest : ∀ x ∈ rest, x ∈ orig :=
      fun x hx => hsub x (List.mem_cons_of_mem q hx)
    unfold profilePass
    by_cases hqd : q.isDefault = true
    · simp only [hqd, if_true]
      exact ih idb hrest hin
    · simp only [hqd, if_false]
      by_cases hqf : e.idbFaults.delProfileFails q.id = true
      · simp only [hqf, if_true]
        exact ih idb hrest hin
      · simp only [hqf, if_false]
        apply ih _ hrest
        simp only [List.mem_filter]
        refine ⟨hin, ?_⟩
        have hne : p.id ≠ q.id := by
          intro hid
          have := List.inj_on_of_nodup_map hnd hp hqorig hid
          rw [this] at hdef
          exact hqd hdef
        simpa [bne_iff_ne] using hne

/-- C5: `clearIndexedDB()` never deletes a profile record whose
`isDefault` flag is true: for every environment and every legacy store
whose profile ids are distinct (the store is keyed by id), a default
profile present before the cleanup is still present afterwards. -/
theorem clearIndexedDB_preserves_default (e : Env) (idb : IDB) (p : ProfileRecord)
    (hnd : (idb.profiles.map ProfileRecord.id).Nodup)
    (hp : p ∈ idb.profiles) (hdef : p.isDefault = true) :
    p ∈ (clearIndexedDB e idb).2.profiles := by
  unfold clearIndexedDB
  split
  · exact hp
  · split
    · exact hp
    · split
      · rename_i m idb1 heq
        have h := configPass_profiles e idb.profiles idb
        rw [heq] at h
        show p ∈ idb1.profiles
        rw [h]
        exact hp
      · rename_i idb1 heq
        have h := configPass_profiles e idb.profiles idb
        rw [heq] at h
        apply profilePass_keeps_default e p idb.profiles hnd hp hdef idb.profiles idb1
          (fun q hq => hq)
        rw [h]
        exact hp

/-- Witness for `clearIndexedDB_preserves_default`: after a full
successful cleanup of the scenario store, the default profile is still
there. -/
theorem clearIndexedDB_preserves_default_witness :
    pDef ∈ (clearIndexedDB envOK idbScenario).2.profiles :=
  clearIndexedDB_preserves_default envOK idbScenario pDef (by decide) (by decide) rfl

/-- Every event emitted by the profile loop is a `saveProfile` of one of
the iterated profiles. -/
theorem profLoop_events (fail : String → Bool) :
    ∀ (ps : List ProfileRecord) (ls : LS) (n : Nat) (ev : Event),
      ev ∈ (profLoop fail ps ls n).2.2.1 →
      ∃ p, p ∈ ps ∧ ev = Event.saveProfile p := by
  intro ps
  induction ps with
  | nil => intro ls n ev h; simp [profLoop] at h
  | cons p rest ih =>
    intro ls n ev h
    unfold profLoop at h
    split at h
    · simp at h
    · rcases hr : profLoop fail rest (saveProfileLS ls p) (n + 1) with ⟨ls1, n1, evs, err⟩
      rw [hr] at h
      simp only [List.mem_cons] at h
      rcases h with h | h
      · exact ⟨p, List.mem_cons_self p rest, h⟩
      · obtain ⟨p', hp', he⟩ := ih (saveProfileLS ls p) (n + 1) ev (by rw [hr]; exact h)
        exact ⟨p', List.mem_cons_of_mem p hp', he⟩

/-- Every event emitted by the inner config loop is a `saveConfig` of
the verbatim relay of one of the iterated configs. -/
theorem cfgInner_events (fail : String → String → Bool) :
    ∀ (cs : List ProviderConfig) (ls : LS) (n m : Nat) (ev : Event),
      ev ∈ (cfgInner fail cs ls n m).2.2.2.1 →
      ∃ c, c ∈ cs ∧ ev = Event.saveConfig (savedOf c) := by
  intro cs
  induction cs with
  | nil => intro ls n m ev h; simp [cfgInner] at h
  | cons c rest ih =>
    intro ls n m ev h
    unfold cfgInner at h
    split at h
    · simp at h
    · rcases hr : cfgInner fail rest (saveConfigLS ls (savedOf c)) (n + 1) (m + 1) with
        ⟨ls1, n1, m1, evs, err⟩
      rw [hr] at h
      simp only [List.mem_cons] at h
      rcases h with h | h
      · exact ⟨c, List.mem_cons_self c rest, h⟩
      · obtain ⟨c', hc', he⟩ :=
          ih (saveConfigLS ls (savedOf c)) (n + 1) (m + 1) ev (by rw [hr]; exact h)
        exact ⟨c', List.mem_cons_of_mem c hc', he⟩

/-- Every event emitted by the outer config loop is a `saveConfig` of
the verbatim relay of a config taken from the legacy store. -/
theorem cfgOuter_events (e : Env) (idb : IDB) :
    ∀ (ps : List ProfileRecord) (ls : LS) (n m : Nat) (ev : Event),
      ev ∈ (cfgOuter e idb ps ls n m).2.2.2.1 →
      ∃ c, c ∈ idb.configs ∧ ev = Event.saveConfig (savedOf c) := by
  intro ps
  induction ps with
  | nil => intro ls n m ev h; simp [cfgOuter] at h
  | cons p rest ih =>
    intro ls n m ev h
    unfold cfgOuter at h
    split at h
    · simp at h
    · split at h
      · rename_i ls1 n1 m1 evs1 msg heq
        have h1 := cfgInner_events e.lsFaults.saveConfigFails
          (idb.configs.filter (fun c => c.profileId == p.id)) ls n m ev
          (by rw [heq]; exact h)
        obtain ⟨c, hc, he⟩ := h1
        exact ⟨c, List.mem_of_mem_filter hc, he⟩
      · rename_i ls1 n1 m1 evs1 heq
        rcases hr : cfgOuter e idb rest ls1 n1 m1 with ⟨ls2, n2, m2, evs2, err⟩
        rw [hr] at h
        simp only [List.mem_append] at h
        rcases h with h | h
        · have h1 := cfgInner_events e.lsFaults.saveConfigFails
            (idb.configs.filter (fun c => c.profileId == p.id)) ls n m ev
            (by rw [heq]; exact h)
          obtain ⟨c, hc, he⟩ := h1
          exact ⟨c, List.mem_of_mem_filter hc, he⟩
        · exact ih ls1 n1 m1 ev (by rw [hr]; exact h)

/-- Every event emitted by the second half of the metadata block on top
of a prefix of `setMetadataEv` events is again a `setMetadataEv`. -/
theorem metaStep2_events (e : Env) (idb : IDB) (ls : LS) (n : Nat)
    (evs : List Event) (hevs : ∀ ev ∈ evs, ∃ k v, ev = Event.setMetadataEv k v) :
    ∀ ev ∈ (metaStep2 e idb ls n evs).2.2, ∃ k v, ev = Event.setMetadataEv k v := by
  intro ev h
  unfold metaStep2 at h
  split at h
  · exact hevs ev h
  · split at h
    · exact hevs ev h
    · simp only [List.mem_append, List.mem_singleton] at h
      rcases h with h | h
      · exact hevs ev h
      · exact ⟨"schema_version", legacySchemaVersion idb, h⟩

/-- Every event emitted by the metadata block is a `setMetadataEv`. -/
theorem metaBlock_events (e : Env) (idb : IDB) (ls : LS) (n : Nat) :
    ∀ ev ∈ (metaBlock e idb ls n).2.2, ∃ k v, ev = Event.setMetadataEv k v := by
  intro ev h
  unfold metaBlock at h
  split at h
  · simp at h
  · split at h
    · split at h
      · simp at h
      · exact metaStep2_events e idb _ _ _ (by intro x hx; simp at hx; exact ⟨_, _, hx⟩) ev h
    · exact metaStep2_events e idb _ _ _ (by intro x hx; simp at hx) ev h

/-- Every event in `migrate()`'s log is a profile save, a verbatim
config relay, a metadata write, or the final version bump. -/
theorem migrate_log_shape (e : Env) (ls : LS) (idb : IDB) (ev : Event)
    (h : ev ∈ (migrate e ls idb).2.2) :
    (∃ p, ev = Event.saveProfile p) ∨
    (∃ c, c ∈ idb.configs ∧ ev = Event.saveConfig (savedOf c)) ∨
    (∃ k v, ev = Event.setMetadataEv k v) ∨
    (∃ n, ev = Event.setVersionEv n) := by
  unfold migrate at h
  split at h
  · simp at h
  · split at h
    · simp at h
    · split at h
      · simp at h
      · split at h
        · rename_i ls1 n1 evs1 msg heq
          obtain ⟨p, _, he⟩ := profLoop_events e.lsFaults.saveProfileFails
            idb.profiles ls 0 ev (by rw [heq]; exact h)
          exact Or.inl ⟨p, he⟩
        · rename_i ls1 n1 evs1 heq
          split at h
          · rename_i ls2 n2 m2 evs2 msg heq2
            simp only [List.mem_append] at h
            rcases h with h | h
            · obtain ⟨p, _, he⟩ := profLoop_events e.lsFaults.saveProfileFails
                idb.profiles ls 0 ev (by rw [heq]; exact h)
              exact Or.inl ⟨p, he⟩
            · obtain ⟨c, hc, he⟩ := cfgOuter_events e idb idb.profiles ls1 n1 0 ev
                (by rw [heq2]; exact h)
              exact Or.inr (Or.inl ⟨c, hc, he⟩)
          · rename_i ls2 n2 m2 evs2 heq2
            split at h
            rename_i ls3 n3 evs3 heq3
            split at h
            · simp only [List.mem_append] at h
              rcases h with (h | h) | h
              · obtain ⟨p, _, he⟩ := profLoop_events e.lsFaults.saveProfileFails
                  idb.profiles ls 0 ev (by rw [heq]; exact h)
                exact Or.inl ⟨p, he⟩
              · obtain ⟨c, hc, he⟩ := cfgOuter_events e idb idb.profiles ls1 n1 0 ev
                  (by rw [heq2]; exact h)
                exact Or.inr (Or.inl ⟨c, hc, he⟩)
              · obtain ⟨k, v, he⟩ := metaBlock_events e idb ls2 n2 ev
                  (by rw [heq3]; exact h)
                exact Or.inr (Or.inr (Or.inl ⟨k, v, he⟩))
            · simp only [List.mem_append, List.mem_singleton] at h
              rcases h with ((h | h) | h) | h
              · obtain ⟨p, _, he⟩ := profLoop_events e.lsFaults.saveProfileFails
                  idb.profiles ls 0 ev (by rw [heq]; exact h)
                exact Or.inl ⟨p, he⟩
              · obtain ⟨c, hc, he⟩ := cfgOuter_events e idb idb.profiles ls1 n1 0 ev
                  (by rw [heq2]; exact h)
                exact Or.inr (Or.inl ⟨c, hc, he⟩)
              · obtain ⟨k, v, he⟩ := metaBlock_events e idb ls2 n2 ev
                  (by rw [heq3]; exact h)
                exact Or.inr (Or.inr (Or.inl ⟨k, v, he⟩))
              · exact Or.inr (Or.inr (Or.inr ⟨2, h⟩))

/-- C8: every `apiKey` written by `migrate()` is the identical envelope
(or `null`) read from the legacy store — each `saveConfig` call relays a
legacy config verbatim, field by field — and `migrate()` never invokes
`encrypt` or `decrypt` (no such call appears in its event log). -/
theorem migrate_relays_encrypted (e : Env) (ls : LS) (idb : IDB) (ev : Event)
    (h : ev ∈ (migrate e ls idb).2.2) :
    (ev ≠ Event.encryptCall ∧ ev ≠ Event.decryptCall) ∧
    (∀ sc, ev = Event.saveConfig sc →
      ∃ c, c ∈ idb.configs ∧ sc = savedOf c ∧ sc.apiKey = c.apiKey) := by
  rcases migrate_log_shape e ls idb ev h with ⟨p, he⟩ | ⟨c, hc, he⟩ | ⟨k, v, he⟩ | ⟨n, he⟩
  · subst he
    exact ⟨⟨fun hx => Event.noConfusion hx, fun hx => Event.noConfusion hx⟩,
      fun sc hx => Event.noConfusion hx⟩
  · subst he
    refine ⟨⟨fun hx => Event.noConfusion hx, fun hx => Event.noConfusion hx⟩,
      fun sc hx => ?_⟩
    have hsc : savedOf c = sc := by injection hx
    subst hsc
    exact ⟨c, hc, rfl, rfl⟩
  · subst he
    exact ⟨⟨fun hx => Event.noConfusion hx, fun hx => Event.noConfusion hx⟩,
      fun sc hx => Event.noConfusion hx⟩
  · subst he
    exact ⟨⟨fun hx => Event.noConfusion hx, fun hx => Event.noConfusion hx⟩,
      fun sc hx => Event.noConfusion hx⟩

/-- Witness for `migrate_relays_encrypted`: the relay of the default
profile's config appears in the scenario's log and its `apiKey` is a
legacy config's envelope verbatim. -/
theorem migrate_relays_encrypted_witness :
    (Event.saveConfig (savedOf cfg1) ≠ Event.encryptCall) ∧
    ∃ c, c ∈ idbScenario.configs ∧ (savedOf cfg1).apiKey = c.apiKey := by
  have h := migrate_relays_encrypted envOK lsEmpty idbScenario
    (Event.saveConfig (savedOf cfg1)) (by decide)
  obtain ⟨c, hc, _, hk⟩ := h.2 (savedOf cfg1) rfl
  exact ⟨h.1.1, c, hc, hk⟩

/-- If the inner config-deletion loop finished without error, none of
the iterated configs was scheduled to fail. -/
theorem delConfigsList_ok_nofail (fail : String → Bool) :
    ∀ (cs : List ProviderConfig) (idb : IDB),
      (delConfigsList fail cs idb).1 = none → ∀ c ∈ cs, fail c.id = false := by
  intro cs
  induction cs with
  | nil => intro idb _ c hc; simp at hc
  | cons c rest ih =>
    intro idb hok x hx
    unfold delConfigsList at hok
    split at hok
    · simp at hok
    · rename_i hfail
      rcases List.mem_cons.mp hx with hx | hx
      · subst hx
        simpa using hfail
      · exact ih _ hok x hx

/-- If the inner config-deletion loop finished without error, a config
whose deletion is scheduled to fail is never removed by it. -/
theorem delConfigsList_keeps_failing (fail : String → Bool) :
    ∀ (cs : List ProviderConfig) (idb : IDB),
      (delConfigsList fail cs idb).1 = none →
      ∀ x ∈ idb.configs, fail x.id = true →
        x ∈ (delConfigsList fail cs idb).2.configs := by
  intro cs
  induction cs with
  | nil => intro idb _ x hx _; simpa [delConfigsList] using hx
  | cons c rest ih =>
    intro idb hok x hx hfx
    unfold delConfigsList at hok ⊢
    split at hok
    · simp at hok
    · rename_i hfail
      rw [if_neg hfail]
      apply ih _ hok x ?_ hfx
      show x ∈ idb.configs.filter (fun d => d.id != c.id)
      refine List.mem_filter.mpr ⟨hx, ?_⟩
      have hne : x.id ≠ c.id := fun hid => hfail (hid ▸ hfx)
      simpa [bne_iff_ne] using hne

/-- If none of the iterated configs is scheduled to fail, the inner
config-deletion loop finishes without error. -/
theorem delConfigsList_ok_of_nofail (fail : String → Bool) :
    ∀ (cs : List ProviderConfig) (idb : IDB),
      (∀ c ∈ cs, fail c.id = false) → (delConfigsList fail cs idb).1 = none := by
  intro cs
  induction cs with
  | nil => intro idb _; rfl
  | cons c rest ih =>
    intro idb hall
    unfold delConfigsList
    rw [if_neg (by simp [hall c (List.mem_cons_self c rest)])]
    exact ih _ (fun x hx => hall x (List.mem_cons_of_mem c hx))

/-- The inner config-deletion loop only removes configs: its result
configs all come from the input store. -/
theorem delConfigsList_sub (fail : String → Bool) :
    ∀ (cs : List ProviderConfig) (idb : IDB) (x : ProviderConfig),
      x ∈ (delConfigsList fail cs idb).2.configs → x ∈ idb.configs := by
  intro cs
  induction cs with
  | nil => intro idb x h; simpa [delConfigsList] using h
  | cons c rest ih =>
    intro idb x h
    unfold delConfigsList at h
    split at h
    · exact h
    · exact List.mem_of_mem_filter (ih _ x h)

/-- The config-deletion pass aborts with an error whenever some config
of some iterated profile is scheduled to fail (and the reads
succeed). -/
theorem configPass_err_isSome (e : Env) :
    ∀ (ps : List ProfileRecord) (idb : IDB),
      (∀ p ∈ ps, e.idbFaults.getConfigsFails p.id = false) →
      (∃ p, p ∈ ps ∧ ∃ c, c ∈ idb.configs ∧ c.profileId = p.id ∧
        e.idbFaults.delConfigFails c.id = true) →
      (configPass e ps idb).1.isSome = true := by
  intro ps
  induction ps with
  | nil =>
    intro idb _ hex
    obtain ⟨p, hp, _⟩ := hex
    simp at hp
  | cons q rest ih =>
    intro idb hreads hex
    unfold configPass
    rw [if_neg (by simp [hreads q (List.mem_cons_self q rest)])]
    rcases hdl : delConfigsList e.idbFaults.delConfigFails
      (idb.configs.filter (fun c => c.profileId == q.id)) idb with ⟨err, idb1⟩
    cases err with
    | some m => rfl
    | none =>
      show (configPass e rest idb1).1.isSome = true
      apply ih idb1 (fun p hp => hreads p (List.mem_cons_of_mem q hp))
      obtain ⟨p, hp, c, hc, hcp2, hcf⟩ := hex
      have hok : (delConfigsList e.idbFaults.delConfigFails
          (idb.configs.filter (fun c => c.profileId == q.id)) idb).1 = none := by
        rw [hdl]
      have hkeep := delConfigsList_keeps_failing e.idbFaults.delConfigFails
        (idb.configs.filter (fun c => c.profileId == q.id)) idb hok c hc hcf
      rw [hdl] at hkeep
      rcases List.mem_cons.mp hp with hpq | hpr
      · subst hpq
        have hnof := delConfigsList_ok_nofail e.idbFaults.delConfigFails
          (idb.configs.filter (fun c => c.profileId == p.id)) idb hok c
          (List.mem_filter.mpr ⟨hc, by simp [hcp2]⟩)
        rw [hnof] at hcf
        simp at hcf
      · exact ⟨p, hpr, c, hkeep, hcp2, hcf⟩

/-- The config-deletion pass finishes without error when no config
delete is scheduled to fail and all reads succeed. -/
theorem configPass_ok_of_nofail (e : Env) :
    ∀ (ps : List ProfileRecord) (idb : IDB),
      (∀ p ∈ ps, e.idbFaults.getConfigsFails p.id = false) →
      (∀ c ∈ idb.configs, e.idbFaults.delConfigFails c.id = false) →
      (configPass e ps idb).1 = none := by
  intro ps
  induction ps with
  | nil => intro idb _ _; rfl
  | cons q rest ih =>
    intro idb hreads hdel
    unfold configPass
    rw [if_neg (by simp [hreads q (List.mem_cons_self q rest)])]
    rcases hdl : delConfigsList e.idbFaults.delConfigFails
      (idb.configs.filter (fun c => c.profileId == q.id)) idb with ⟨err, idb1⟩
    have herr : err = none := by
      have h := delConfigsList_ok_of_nofail e.idbFaults.delConfigFails
        (idb.configs.filter (fun c => c.profileId == q.id)) idb
        (fun c hc => hdel c (List.mem_of_mem_filter hc))
      rw [hdl] at h
      exact h
    subst herr
    show (configPass e rest idb1).1 = none
    apply ih idb1 (fun p hp => hreads p (List.mem_cons_of_mem q hp))
    intro c hc
    have hmem : c ∈ idb.configs := by
      have hs := delConfigsList_sub e.idbFaults.delConfigFails
        (idb.configs.filter (fun c => c.profileId == q.id)) idb c
      rw [hdl] at hs
      exact hs hc
    exact hdel c hmem

/-- The profile-deletion pass only removes profiles: its result profiles
all come from the input store. -/
theorem profilePass_subset (e : Env) :
    ∀ (ps : List ProfileRecord) (idb : IDB) (x : ProfileRecord),
      x ∈ (profilePass e ps idb).profiles → x ∈ idb.profiles := by
  intro ps
  induction ps with
  | nil => intro idb x h; simpa [profilePass] using h
  | cons q rest ih =>
    intro idb x h
    unfold profilePass at h
    split at h
    · exact ih _ _ h
    · split at h
      · exact ih _ _ h
      · exact List.mem_of_mem_filter (ih _ _ h)

/-- A non-default profile whose deletion is not scheduled to fail is
gone after the profile-deletion pass, regardless of other profiles'
deletion failures: caught per-item failures do not stop the pass. -/
theorem profilePass_deletes (e : Env) :
    ∀ (ps : List ProfileRecord) (idb : IDB) (q : ProfileRecord),
      q ∈ ps → q.isDefault = false → e.idbFaults.delProfileFails q.id = false →
      q ∉ (profilePass e ps idb).profiles := by
  intro ps
  induction ps with
  | nil => intro idb q hq; simp at hq
  | cons r rest ih =>
    intro idb q hq hdef hfail
    rcases List.mem_cons.mp hq with hqr | hqr
    · subst hqr
      unfold profilePass
      rw [if_neg (by simp [hdef]), if_neg (by simp [hfail])]
      intro hmem
      have hsub := profilePass_subset e rest _ q hmem
      have hbne := (List.mem_filter.mp hsub).2
      simp at hbne
    · unfold profilePass
      split
      · exact ih _ q hqr hdef hfail
      · split
        · exact ih _ q hqr hdef hfail
        · exact ih _ q hqr hdef hfail

/-- Whenever `clearIndexedDB()` rejects, no profile has been deleted:
the error always arises at or before the config pass, which never
touches the `profiles` table. -/
theorem clearIndexedDB_error_profiles (e : Env) (idb : IDB) :
    (∃ m, (clearIndexedDB e idb).1 = Except.error m) →
    (clearIndexedDB e idb).2.profiles = idb.profiles := by
  unfold clearIndexedDB
  split
  · intro _
    rfl
  · split
    · intro _
      rfl
    · split
      · rename_i m1 idb1 heq
        intro _
        show idb1.profiles = idb.profiles
        have h := configPass_profiles e idb.profiles idb
        rw [heq] at h
        exact h
      · rename_i idb1 heq
        rintro ⟨m, hm⟩
        exact Except.noConfusion hm

/-- C9: a rejection while deleting a single provider config is fatal to
`clearIndexedDB()` — it propagates through the outer catch, aborting the
profile pass entirely (no profile is deleted on any error) and making
the call reject — whereas per-profile deletion failures are caught
individually: with all config deletes succeeding the call resolves, and
every other non-default profile is still deleted. -/
theorem clearIndexedDB_config_failure_policy (e : Env) (idb : IDB) :
    (∀ m, (clearIndexedDB e idb).1 = Except.error m →
      (clearIndexedDB e idb).2.profiles = idb.profiles) ∧
    (e.providerDBPresent = true →
     (hasValidIndexedDBSchema e).result = true →
     e.idbFaults.getAllProfilesFails = false →
     (∀ p ∈ idb.profiles, e.idbFaults.getConfigsFails p.id = false) →
     ((∃ p, p ∈ idb.profiles ∧ ∃ c, c ∈ idb.configs ∧ c.profileId = p.id ∧
         e.idbFaults.delConfigFails c.id = true) →
       ∃ m, (clearIndexedDB e idb).1 = Except.error m) ∧
     ((∀ c ∈ idb.configs, e.idbFaults.delConfigFails c.id = false) →
       (clearIndexedDB e idb).1 = Except.ok () ∧
       ∀ q ∈ idb.profiles, q.isDefault = false →
         e.idbFaults.delProfileFails q.id = false →
         q ∉ (clearIndexedDB e idb).2.profiles)) := by
  constructor
  · intro m hm
    exact clearIndexedDB_error_profiles e idb ⟨m, hm⟩
  · intro hpres hsc hga hreads
    have hcond : ¬((!e.providerDBPresent || !(hasValidIndexedDBSchema e).result) = true) := by
      simp [hpres, hsc]
    constructor
    · intro hex
      have hsome := configPass_err_isSome e idb.profiles idb hreads hex
      unfold clearIndexedDB
      rw [if_neg hcond, if_neg (by simp [hga])]
      rcases hcp : configPass e idb.profiles idb with ⟨err, idb1⟩
      rw [hcp] at hsome
      cases err with
      | some m => exact ⟨m, rfl⟩
      | none => simp at hsome
    · intro hdel
      have hnone := configPass_ok_of_nofail e idb.profiles idb hreads hdel
      unfold clearIndexedDB
      rw [if_neg hcond, if_neg (by simp [hga])]
      rcases hcp : configPass e idb.profiles idb with ⟨err, idb1⟩
      rw [hcp] at hnone
      have herr : err = none := hnone
      subst herr
      refine ⟨rfl, ?_⟩
      intro q hq hqdef hqfail
      show q ∉ (profilePass e idb.profiles idb1).profiles
      exact profilePass_deletes e idb.profiles idb1 q hq hqdef hqfail

/-- Witness for `clearIndexedDB_config_failure_policy`: in the scenario
store with config `c1`'s deletion rejecting, `clearIndexedDB` rejects
and both profiles — the non-default one included — survive. -/
theorem clearIndexedDB_config_failure_policy_witness :
    (∃ m, (clearIndexedDB envDelFail idbScenario).1 = Except.error m) ∧
    (clearIndexedDB envDelFail idbScenario).2.profiles = idbScenario.profiles := by
  have h := clearIndexedDB_config_failure_policy envDelFail idbScenario
  have h2 := (h.2 rfl rfl rfl (by decide)).1
    ⟨pDef, by decide, cfg1, by decide, by decide, by decide⟩
  obtain ⟨m, hm⟩ := h2
  exact ⟨⟨m, hm⟩, h.1 m hm⟩

end Migration
